import Mathlib

/-!
Shallow embedding of `src/request/request_util.py` (fishtn/python_code):
a unification layer over HTTP client backends — the `Response` model with
lazy encoding resolution, the `retry` decorator, the downloader middleware
pipeline, and the per-backend session selection of the three Downloader
variants.  Machine-level concerns (sockets, event loops, logging sinks)
are modelled as abstract parameters; pure data flow is translated
function-by-function from the source.
-/

/-- Byte strings are modelled as lists of byte values. -/
abbrev ByteStr := List Nat

/-- Python truthiness of an optional string: `None` and `""` are falsy. -/
def truthyOptStr : Option String → Bool
  | none => false
  | some s => !s.isEmpty

/-- `str.partition(sep)` (first occurrence), returning the part before and
the part after the separator; when the separator is absent the second
component is empty. -/
def partitionOn (s sep : String) : String × String :=
  match s.splitOn sep with
  | [] => (s, "")
  | [x] => (x, "")
  | x :: rest => (x, String.intercalate sep rest)

/-- `str.strip(' "')`: drop leading and trailing blanks and double quotes. -/
def stripSpaceQuote (s : String) : String :=
  let cs := [' ', '"']
  String.mk (((s.toList.dropWhile cs.contains).reverse.dropWhile cs.contains).reverse)

/-- First value stored under a key in an association list (the behaviour of
`dict.get` / `MultiDict.get`, which return the first match). -/
def assocGet (l : List (String × String)) (key : String) : Option String :=
  match l.find? (fun p => p.1 == key) with
  | some p => some p.2
  | none => none

/-- The result of `aiohttp.helpers.parse_mimetype`. -/
structure MimeType where
  type : String
  subtype : String
  suffix : String
  parameters : List (String × String)
deriving DecidableEq, Repr

/-- `aiohttp.helpers.parse_mimetype`: split on `;`, parse `key=value`
parameters (keys lowered and trimmed, values stripped of blanks and
quotes), lower the full type and split it on `/` and then `+`. -/
def parse_mimetype (mimetype : String) : MimeType :=
  if mimetype.isEmpty then ⟨"", "", "", []⟩
  else
    let parts := mimetype.splitOn ";"
    let params := (parts.drop 1).foldl
      (fun acc item =>
        if item.isEmpty then acc
        else
          let kv := partitionOn item "="
          acc ++ [(kv.1.toLower.trim, stripSpaceQuote kv.2)])
      []
    let fulltype := ((parts.headD "").trim).toLower
    let fulltype := if fulltype = "*" then "*/*" else fulltype
    let ts := partitionOn fulltype "/"
    let ss := partitionOn ts.2 "+"
    ⟨ts.1, ss.1, ss.2, params⟩

/-- The exceptions `Response.get_encoding` can raise: an `AttributeError`
when `self.headers` is `None` (calling `.get` on `None`), and the
`RuntimeError("Cannot guess the encoding of a not yet read body")` branch. -/
inductive EncodingErr where
  | attributeError
  | runtimeError
deriving DecidableEq, Repr

/-- The `Response` object of `request_util.py`: url, encoding, headers,
cookies, history, status, raw content, and the `ok` field computed in
`__init__`.  Cookies and history are opaque payloads for these claims. -/
structure Response where
  url : String
  encoding : String
  headers : Option (List (String × String))
  cookies : Option (List (String × String))
  history : Option (List Nat)
  status : Int
  _content : Option ByteStr
  ok : Nat
deriving DecidableEq, Repr

/-- `Response.__init__`: stores each argument and sets
`self.ok = 1 if self.status < 400 else 0`.  Argument order follows the
Python signature `(url, *, encoding, content, cookies, history, headers,
status)`. -/
def responseInit (url : String) (encoding : String) (content : Option ByteStr)
    (cookies : Option (List (String × String))) (history : Option (List Nat))
    (headers : Option (List (String × String))) (status : Int) : Response :=
  { url := url
    encoding := encoding
    headers := headers
    cookies := cookies
    history := history
    status := status
    _content := content
    ok := if status < 400 then 1 else 0 }

/-- `Response()` with every argument left to its Python default:
`url=""`, `encoding=""`, `content=None`, `cookies=None`, `history=None`,
`headers=None`, `status=-1`. -/
def responseDefault : Response :=
  responseInit "" "" none none none none (-1)

/-- `Response.get_encoding`, lines 144-164 of the source.  The external
collaborators are parameters: `lookupCodec` is `codecs.lookup` succeeding
(`True` = recognised codec), `detect` is `cchardet.detect(content)["encoding"]`.
Returns the resolved encoding together with the number of `cchardet.detect`
invocations performed (0 or 1). -/
def Response.get_encoding (r : Response) (lookupCodec : String → Bool)
    (detect : ByteStr → Option String) : Except EncodingErr String × Nat :=
  match r.headers with
  | none => (Except.error EncodingErr.attributeError, 0)
  | some hs =>
    let c_type := ((assocGet hs "Content-Type").getD "").toLower
    let mt := parse_mimetype c_type
    let enc0 : Option String := assocGet mt.parameters "charset"
    let enc1 : Option String :=
      match enc0 with
      | some s => if !s.isEmpty && !lookupCodec s then none else some s
      | none => none
    if truthyOptStr enc1 then (Except.ok (enc1.getD ""), 0)
    else if mt.type = "application" && (mt.subtype = "json" || mt.subtype = "rdap") then
      (Except.ok "utf-8", 0)
    else
      match r._content with
      | none => (Except.error EncodingErr.runtimeError, 0)
      | some bs =>
        let enc2 := detect bs
        if truthyOptStr enc2 then (Except.ok (enc2.getD ""), 1)
        else (Except.ok "utf-8", 1)

/-- What one access to the `text` property yields: the raw content object
when the content is falsy (`None` or `b""`), a decoded string, or a
propagated exception from `get_encoding`. -/
inductive TextResult where
  | raw (content : Option ByteStr)
  | decoded (s : String)
  | raised (e : EncodingErr)
deriving DecidableEq, Repr

/-- One access to `Response.text` (lines 118-126): returns the result, the
response afterwards (`text` assigns `self.encoding` when it was falsy),
and the number of `cchardet.detect` invocations during this access.
`decode` stands for `bytes.decode(encoding, errors="replace")`, a pure
function of the bytes and the encoding name. -/
def Response.textAccess (r : Response) (lookupCodec : String → Bool)
    (detect : ByteStr → Option String) (decode : ByteStr → String → String) :
    TextResult × Response × Nat :=
  match r._content with
  | none => (TextResult.raw none, r, 0)
  | some bs =>
    if bs.isEmpty then (TextResult.raw (some bs), r, 0)
    else if !r.encoding.isEmpty then (TextResult.decoded (decode bs r.encoding), r, 0)
    else
      match r.get_encoding lookupCodec detect with
      | (Except.ok e, d) => (TextResult.decoded (decode bs e), { r with encoding := e }, d)
      | (Except.error err, d) => (TextResult.raised err, r, d)

/-- The encoding-resolution order exactly as the specification words it:
(a) an explicitly supplied encoding, (b) the `charset` parameter of the
`Content-Type` header if it names a recognised codec, (c) `utf-8` for
`application/json` and `application/rdap`, (d) statistical content-based
detection, (e) `utf-8` as final fallback. -/
def encodingSpecOrder (explicit : String) (hs : List (String × String))
    (bs : ByteStr) (lookupCodec : String → Bool)
    (detect : ByteStr → Option String) : String :=
  if !explicit.isEmpty then explicit
  else
    let mt := parse_mimetype (((assocGet hs "Content-Type").getD "").toLower)
    let charset := assocGet mt.parameters "charset"
    if truthyOptStr charset && lookupCodec (charset.getD "") then charset.getD ""
    else if mt.type = "application" && (mt.subtype = "json" || mt.subtype = "rdap") then "utf-8"
    else if truthyOptStr (detect bs) then (detect bs).getD ""
    else "utf-8"

/-- Outcome of the `retry` decorator's loop: either a returned `Response`
(`if response.ok: return response`) or the raised
`Exception("...")` once the budget check `retry_times <= 0` fires. -/
inductive RetryOutcome where
  | success (r : Response)
  | exhausted
deriving DecidableEq, Repr

/-- Result of running the retry loop, together with the number of
executions of the wrapped call (`attempts`) and of `time.sleep`
(`sleeps`). -/
structure RetryResult where
  outcome : RetryOutcome
  attempts : Nat
  sleeps : Nat
deriving DecidableEq, Repr

/-- The body of `retry.retry_fun.wrapper` (source lines 49-73).  One
attempt is `call i : Except Unit Response`: `Except.error` models the
wrapped call raising (caught by the bare `except:` and logged), `Except.ok`
a returned `Response` whose truthy `ok` ends the loop.  `b` is the current
retry budget as a natural number: the source checks `retry_times <= 0`
before each decrement, so every non-positive budget behaves exactly like
`0` (the wrapped call runs once more and the exception is raised), which
the `Int.toNat` conversion in `retryRun` makes explicit.  In both budget
cases the attempt executes first and the budget check (`retry_times <= 0`)
follows, as in the loop body. -/
def retryLoopN (call : Nat → Except Unit Response) : Nat → Nat → Nat → RetryResult
  | i, s, 0 =>
    match call i with
    | Except.ok r =>
      if r.ok ≠ 0 then ⟨RetryOutcome.success r, i + 1, s⟩
      else ⟨RetryOutcome.exhausted, i + 1, s⟩
    | Except.error _ => ⟨RetryOutcome.exhausted, i + 1, s⟩
  | i, s, b' + 1 =>
    match call i with
    | Except.ok r =>
      if r.ok ≠ 0 then ⟨RetryOutcome.success r, i + 1, s⟩
      else retryLoopN call (i + 1) (s + 1) b'
    | Except.error _ => retryLoopN call (i + 1) (s + 1) b'

/-- The retry-wrapped execution of an operation: the loop starts at the
first attempt with the resolved budget
`kwargs.get("retry_times", download_ins.retry_times)`. -/
def retryRun (call : Nat → Except Unit Response) (retry_times : Int) : RetryResult :=
  retryLoopN call 0 0 retry_times.toNat

/-- Attempt `j` fails in the sense of the retry loop: the wrapped call
raises, or returns a `Response` whose `ok` field is falsy. -/
def attemptFails (call : Nat → Except Unit Response) (j : Nat) : Bool :=
  match call j with
  | Except.error _ => true
  | Except.ok r => r.ok == 0

/-- The `Request` attribute bag: method, url, the retry keywords, and the
remaining keyword arguments as an opaque association list. -/
structure Request where
  url : String
  method : String
  retry_times : Option Int
  retry_delay : Option Int
  extra : List (String × String)
deriving DecidableEq, Repr

/-- `Request.get_http_kwargs`: a copy of the attribute dict with
`retry_times` and `retry_delay` popped. -/
def Request.get_http_kwargs (r : Request) : Request :=
  { r with retry_times := none, retry_delay := none }

/-- A registered request hook (`mw.process_request` bound method): it may
rewrite the request or raise (`Except.error`). -/
structure ReqHook where
  id : Nat
  run : Request → Except Unit Request

/-- A registered response hook (`mw.process_response` bound method). -/
structure RespHook where
  id : Nat
  run : Request → Response → Except Unit Response

/-- A middleware instance as `_load_middleware` inspects it: each of the
three optional capabilities is present or absent
(`hasattr` + `callable`). -/
structure Middleware where
  id : Nat
  process_request : Option (Request → Except Unit Request)
  process_response : Option (Request → Response → Except Unit Response)
  has_close : Bool

/-- The three deques owned by `DownloaderMiddleware.__init__`. -/
structure MWState where
  request_middleware : List ReqHook
  response_middleware : List RespHook
  close_method : List Nat

namespace DownloaderMiddleware

/-- `DownloaderMiddleware._load_middleware` (lines 181-193): for each
middleware class, `append` its request hook, `appendleft` its response
hook, `appendleft` its close method. -/
def load_middleware : List Middleware → MWState → MWState
  | [], st => st
  | mw :: rest, st =>
    let st1 := match mw.process_request with
      | some f => { st with request_middleware := st.request_middleware ++ [⟨mw.id, f⟩] }
      | none => st
    let st2 := match mw.process_response with
      | some f => { st1 with response_middleware := ⟨mw.id, f⟩ :: st1.response_middleware }
      | none => st1
    let st3 := if mw.has_close then { st2 with close_method := mw.id :: st2.close_method } else st2
    load_middleware rest st3

/-- `DownloaderMiddleware.process_request` (lines 209-214): run every
request hook in deque order inside `try/except`, logging a raising hook
and continuing.  Returns the request after the hooks and the invocation
log as `(hook id, raised?)` pairs; the return type carries no error: a
hook failure never propagates. -/
def process_request : List ReqHook → Request → Request × List (Nat × Bool)
  | [], req => (req, [])
  | h :: rest, req =>
    match h.run req with
    | Except.ok req2 =>
      let out := process_request rest req2
      (out.1, (h.id, false) :: out.2)
    | Except.error _ =>
      let out := process_request rest req
      (out.1, (h.id, true) :: out.2)

/-- `DownloaderMiddleware.process_response` (lines 216-221), same shape as
`process_request` over the response deque. -/
def process_response : List RespHook → Request → Response → Response × List (Nat × Bool)
  | [], _, resp => (resp, [])
  | h :: rest, req, resp =>
    match h.run req resp with
    | Except.ok resp2 =>
      let out := process_response rest req resp2
      (out.1, (h.id, false) :: out.2)
    | Except.error _ =>
      let out := process_response rest req resp
      (out.1, (h.id, true) :: out.2)

/-- `DownloaderMiddleware.download_with_middleware` (lines 195-200): run
the request hooks, strip the retry keywords, perform the transport call,
run the response hooks, return the response.  Also returns both invocation
logs for the pipeline claims. -/
def download_with_middleware (st : MWState) (download_func : Request → Response)
    (request : Request) : Response × List (Nat × Bool) × List (Nat × Bool) :=
  let step1 := process_request st.request_middleware request
  let kwargs := step1.1.get_http_kwargs
  let response := download_func kwargs
  let step2 := process_response st.response_middleware step1.1 response
  (step2.1, step1.2, step2.2)

end DownloaderMiddleware

/-- The transport a downloader operation hands the HTTP call to:
a module-level function of the backend library (`requests.get`,
`requests.post`, `httpx.get`, `httpx.post` — these build a throwaway
session internally), an existing session handle (identified by id), or a
client freshly constructed for this single call. -/
inductive Transport where
  | moduleLevel
  | session (id : Nat)
  | freshClient (id : Nat)
deriving DecidableEq, Repr

/-- `RequestDownloader` state: the `default_session` created (or supplied)
in `__init__`, plus the retry configuration. -/
structure RequestDownloader where
  default_session : Nat
  retry_times : Int
  retry_delay : Int
deriving DecidableEq, Repr

/-- `RequestDownloader.get` (line 287) calls `requests.get`: the
module-level function, never `self.default_session`. -/
def RequestDownloader.get_handle (_d : RequestDownloader) : Transport :=
  Transport.moduleLevel

/-- `RequestDownloader.post` (line 295) calls `requests.post`. -/
def RequestDownloader.post_handle (_d : RequestDownloader) : Transport :=
  Transport.moduleLevel

/-- `RequestDownloader.download` (lines 297-307): `if not session: session
= self.default_session`, then `session.request`. -/
def RequestDownloader.download_handle (d : RequestDownloader)
    (session : Option Nat) : Transport :=
  match session with
  | some s => Transport.session s
  | none => Transport.session d.default_session

/-- `RequestDownloader.fetch` (lines 309-320): same session selection as
`download`, with the middleware pipeline around the call. -/
def RequestDownloader.fetch_handle (d : RequestDownloader)
    (session : Option Nat) : Transport :=
  match session with
  | some s => Transport.session s
  | none => Transport.session d.default_session

/-- `HttpxDownloader` state. -/
structure HttpxDownloader where
  default_session : Nat
  retry_times : Int
  retry_delay : Int
deriving DecidableEq, Repr

/-- `HttpxDownloader.get` (line 355) calls `httpx.get`. -/
def HttpxDownloader.get_handle (_d : HttpxDownloader) : Transport :=
  Transport.moduleLevel

/-- `HttpxDownloader.post` (line 363) calls `httpx.post`. -/
def HttpxDownloader.post_handle (_d : HttpxDownloader) : Transport :=
  Transport.moduleLevel

/-- `HttpxDownloader.download` (lines 365-384): when `proxies` is given a
new client is built (`session.copy()` with proxies set, or a fresh
`httpx.Client`); otherwise the explicit session, else the default. -/
def HttpxDownloader.download_handle (d : HttpxDownloader) (session : Option Nat)
    (proxies : Option String) (freshId : Nat) : Transport :=
  match proxies with
  | some _ => Transport.freshClient freshId
  | none =>
    match session with
    | some s => Transport.session s
    | none => Transport.session d.default_session

/-- `HttpxDownloader.fetch` (lines 386-403): same selection as
`download`. -/
def HttpxDownloader.fetch_handle (d : HttpxDownloader) (session : Option Nat)
    (proxies : Option String) (freshId : Nat) : Transport :=
  match proxies with
  | some _ => Transport.freshClient freshId
  | none =>
    match session with
    | some s => Transport.session s
    | none => Transport.session d.default_session

/-- `AiohttpDownloader` state: `__init__` (lines 424-430) stores a session
only when one is supplied — otherwise `default_session` stays `None` until
`get_session` creates one. -/
structure AiohttpDownloader where
  default_session : Option Nat
  retry_times : Int
  retry_delay : Int
deriving DecidableEq, Repr

/-- `AiohttpDownloader.get_session` (lines 435-442): return the default
session, creating and storing one on first use. -/
def AiohttpDownloader.get_session (d : AiohttpDownloader) (freshId : Nat) :
    Nat × AiohttpDownloader :=
  match d.default_session with
  | some s => (s, d)
  | none => (freshId, { d with default_session := some freshId })

/-- `AiohttpDownloader.async_get` (lines 461-474) opens
`aiohttp.ClientSession()` anew for the call; `get` (line 493) drives it.
It never touches `default_session`. -/
def AiohttpDownloader.get_handle (_d : AiohttpDownloader) (freshId : Nat) : Transport :=
  Transport.freshClient freshId

/-- `AiohttpDownloader.async_post` (lines 476-490) likewise opens a fresh
`aiohttp.ClientSession()`. -/
def AiohttpDownloader.post_handle (_d : AiohttpDownloader) (freshId : Nat) : Transport :=
  Transport.freshClient freshId

/-- `AiohttpDownloader.async_download` (lines 523-533): `if not session:
session = await self.get_session()`. -/
def AiohttpDownloader.download_handle (d : AiohttpDownloader)
    (session : Option Nat) (freshId : Nat) : Transport × AiohttpDownloader :=
  match session with
  | some s => (Transport.session s, d)
  | none =>
    let p := d.get_session freshId
    (Transport.session p.1, p.2)

/-- `AiohttpDownloader.async_fetch` (lines 535-544): same selection as
`async_download`, plus the middleware pipeline. -/
def AiohttpDownloader.fetch_handle (d : AiohttpDownloader)
    (session : Option Nat) (freshId : Nat) : Transport × AiohttpDownloader :=
  match session with
  | some s => (Transport.session s, d)
  | none =>
    let p := d.get_session freshId
    (Transport.session p.1, p.2)

/-- C1: For every Response, the `ok` flag is a pure function of the status
code: `ok` is truthy if and only if `status < 400`; it is fixed by the
constructor and independent of every other field. -/
theorem response_ok_iff_status_lt_400
    (url encoding : String) (content : Option ByteStr)
    (cookies : Option (List (String × String))) (history : Option (List Nat))
    (headers : Option (List (String × String))) (status : Int)
    (url2 encoding2 : String) (content2 : Option ByteStr)
    (cookies2 : Option (List (String × String))) (history2 : Option (List Nat))
    (headers2 : Option (List (String × String))) :
    ((responseInit url encoding content cookies history headers status).ok ≠ 0 ↔
        status < 400) ∧
    (responseInit url encoding content cookies history headers status).ok =
      (responseInit url2 encoding2 content2 cookies2 history2 headers2 status).ok ∧
    (responseInit url encoding content cookies history headers status).status = status := by
  refine ⟨?_, rfl, rfl⟩
  unfold responseInit
  by_cases h : status < 400 <;> simp [h]

/-- C10: a `Response` constructed with every argument defaulted has
`status = -1` and a truthy `ok` flag (`-1 < 400`), the same `ok` value as
a successful status-200 response: `ok` cannot tell them apart. -/
theorem default_response_ok_indistinguishable :
    responseDefault.status = -1 ∧ responseDefault.ok = 1 ∧
    responseDefault.ok =
      (responseInit "http://e" "" (some [104]) none none (some []) 200).ok :=
  ⟨rfl, rfl, rfl⟩

theorem retryLoopN_zero (call : Nat → Except Unit Response) (i s : Nat) :
    retryLoopN call i s 0 =
      (match call i with
       | Except.ok r =>
         if r.ok ≠ 0 then ⟨RetryOutcome.success r, i + 1, s⟩
         else ⟨RetryOutcome.exhausted, i + 1, s⟩
       | Except.error _ => ⟨RetryOutcome.exhausted, i + 1, s⟩) := rfl

theorem retryLoopN_succ (call : Nat → Except Unit Response) (i s b' : Nat) :
    retryLoopN call i s (b' + 1) =
      (match call i with
       | Except.ok r =>
         if r.ok ≠ 0 then ⟨RetryOutcome.success r, i + 1, s⟩
         else retryLoopN call (i + 1) (s + 1) b'
       | Except.error _ => retryLoopN call (i + 1) (s + 1) b') := rfl

theorem retryLoopN_all_fail (call : Nat → Except Unit Response)
    (b : Nat) : ∀ i s : Nat, (∀ j, attemptFails call j = true) →
    retryLoopN call i s b = ⟨RetryOutcome.exhausted, i + b + 1, s + b⟩ := by
  induction b with
  | zero =>
    intro i s h
    have hj := h i
    unfold attemptFails at hj
    rw [retryLoopN_zero]
    cases hc : call i with
    | ok r =>
      rw [hc] at hj
      simp only [beq_iff_eq] at hj
      simp [hj]
    | error e => simp
  | succ b ih =>
    intro i s h
    have hj := h i
    unfold attemptFails at hj
    rw [retryLoopN_succ]
    cases hc : call i with
    | ok r =>
      rw [hc] at hj
      simp only [beq_iff_eq] at hj
      simp only [hj, ne_eq, not_true_eq_false, if_false]
      rw [ih (i + 1) (s + 1) h]
      simp only [RetryResult.mk.injEq]
      exact ⟨trivial, by omega, by omega⟩
    | error e =>
      simp only []
      rw [ih (i + 1) (s + 1) h]
      simp only [RetryResult.mk.injEq]
      exact ⟨trivial, by omega, by omega⟩

theorem retryLoopN_succeeds (call : Nat → Except Unit Response) (r : Response)
    (n : Nat) : ∀ i s b : Nat,
    (∀ j, j < n → attemptFails call (i + j) = true) →
    call (i + n) = Except.ok r → r.ok ≠ 0 → n ≤ b →
    retryLoopN call i s b = ⟨RetryOutcome.success r, i + n + 1, s + n⟩ := by
  induction n with
  | zero =>
    intro i s b _ hok hr _
    rw [Nat.add_zero] at hok
    cases b with
    | zero => rw [retryLoopN_zero, hok]; simp [hr]
    | succ b' => rw [retryLoopN_succ, hok]; simp [hr]
  | succ n ih =>
    intro i s b hfail hok hr hb
    obtain ⟨b', rfl⟩ : ∃ b', b = b' + 1 := ⟨b - 1, by omega⟩
    have h0 : attemptFails call i = true := by
      have := hfail 0 (Nat.succ_pos n)
      rwa [Nat.add_zero] at this
    have hchain : ∀ j, j < n → attemptFails call (i + 1 + j) = true := by
      intro j hj
      have := hfail (j + 1) (by omega)
      have e : i + (j + 1) = i + 1 + j := by omega
      rwa [e] at this
    have hok1 : call (i + 1 + n) = Except.ok r := by
      have e : i + (n + 1) = i + 1 + n := by omega
      rwa [e] at hok
    have hrec := ih (i + 1) (s + 1) b' hchain hok1 hr (by omega)
    rw [retryLoopN_succ]
    unfold attemptFails at h0
    cases hc : call i with
    | ok r0 =>
      rw [hc] at h0
      simp only [beq_iff_eq] at h0
      simp only [h0, ne_eq, not_true_eq_false, if_false]
      rw [hrec]
      simp only [RetryResult.mk.injEq]
      exact ⟨trivial, by omega, by omega⟩
    | error e =>
      rw [hrec]
      simp only [RetryResult.mk.injEq]
      exact ⟨trivial, by omega, by omega⟩

theorem retryLoopN_congr (call call2 : Nat → Except Unit Response) (b : Nat) :
    ∀ i s : Nat, (∀ j, i ≤ j → call j = call2 j) →
    retryLoopN call i s b = retryLoopN call2 i s b := by
  induction b with
  | zero =>
    intro i s h
    rw [retryLoopN_zero, retryLoopN_zero, h i (Nat.le_refl i)]
  | succ b ih =>
    intro i s h
    rw [retryLoopN_succ, retryLoopN_succ, h i (Nat.le_refl i)]
    have hrec := ih (i + 1) (s + 1) (fun j hj => h j (by omega))
    cases call2 i with
    | ok r =>
      by_cases hro : r.ok ≠ 0
      · simp [hro]
      · simp only [hro, if_false]
        exact hrec
    | error e => exact hrec

/-- C2 counterexample: with retry budget 1 and a wrapped call that always
raises, the loop executes the wrapped call twice — once more than the
claimed "exactly K attempts" — before raising the exhaustion exception. -/
theorem retry_budget_counterexample :
    retryRun (fun _ => Except.error ()) 1 = ⟨RetryOutcome.exhausted, 2, 1⟩ ∧
    (2 : Nat) ≠ 1 := ⟨rfl, by decide⟩

/-- C2 amended: for every retry budget K, if the wrapped call never yields
an ok response (every attempt raises or returns a non-ok Response), the
retry-wrapped operation raises the exhaustion exception after exactly
K + 1 attempts of the wrapped call: the budget counts the retries that
follow the initial attempt. -/
theorem retry_always_fail_exhausts (call : Nat → Except Unit Response) (K : Nat)
    (h : ∀ j, attemptFails call j = true) :
    retryRun call (K : Int) = ⟨RetryOutcome.exhausted, K + 1, K⟩ := by
  unfold retryRun
  have ht : ((K : Int)).toNat = K := by simp
  rw [ht]
  have hmain := retryLoopN_all_fail call K 0 0 h
  simpa using hmain

theorem retry_always_fail_exhausts_witness :
    retryRun (fun _ => Except.error ()) ((2 : Nat) : Int) =
      ⟨RetryOutcome.exhausted, 3, 2⟩ :=
  retry_always_fail_exhausts (fun _ => Except.error ()) 2 (fun _ => rfl)

/-- C3: with retry budget K ≥ 1, a wrapped call that fails on the first
K − 1 attempts and returns an ok Response on the Kth attempt makes the
retry-wrapped operation return that Response from the Kth attempt, with
the inter-attempt delay (`time.sleep`) invoked exactly K − 1 times. -/
theorem retry_succeeds_on_kth_attempt (call : Nat → Except Unit Response)
    (K : Nat) (r : Response) (hK : 1 ≤ K)
    (hfail : ∀ j, j < K - 1 → attemptFails call j = true)
    (hok : call (K - 1) = Except.ok r) (hr : r.ok ≠ 0) :
    retryRun call (K : Int) = ⟨RetryOutcome.success r, K, K - 1⟩ := by
  unfold retryRun
  have ht : ((K : Int)).toNat = K := by simp
  rw [ht]
  have hmain := retryLoopN_succeeds call r (K - 1) 0 0 K
    (fun j hj => by simpa using hfail j hj)
    (by simpa using hok) hr (by omega)
  have e1 : 0 + (K - 1) + 1 = K := by omega
  have e2 : 0 + (K - 1) = K - 1 := by omega
  rw [hmain, e1, e2]

theorem retry_succeeds_on_kth_attempt_witness :
    retryRun
      (fun i => if i = 0 then Except.error ()
                else Except.ok (responseInit "u" "" none none none none 200))
      ((2 : Nat) : Int) =
      ⟨RetryOutcome.success (responseInit "u" "" none none none none 200), 2, 1⟩ :=
  retry_succeeds_on_kth_attempt _ 2 _ (by omega)
    (fun j hj => by
      have h0 : j = 0 := by omega
      subst h0
      rfl)
    rfl (by decide)

/-- C7: an attempt in which the wrapped call raises is logged and treated
exactly like a non-ok outcome: replacing the raising attempt by one that
returns a non-ok Response leaves the loop result unchanged, and while the
budget is positive the loop sleeps and retries with the budget decremented
instead of propagating the exception. -/
theorem retry_exception_like_non_ok (call call2 : Nat → Except Unit Response)
    (i s b : Nat) (r2 : Response)
    (herr : call i = Except.error ())
    (hnok : call2 i = Except.ok r2) (hr2 : r2.ok = 0)
    (hsame : ∀ j, j ≠ i → call2 j = call j) :
    retryLoopN call i s b = retryLoopN call2 i s b ∧
    (∀ b', b = b' + 1 →
      retryLoopN call i s b = retryLoopN call (i + 1) (s + 1) b') := by
  constructor
  · cases b with
    | zero =>
      rw [retryLoopN_zero, retryLoopN_zero, herr, hnok]
      simp [hr2]
    | succ b' =>
      rw [retryLoopN_succ, retryLoopN_succ, herr, hnok]
      simp only [hr2, ne_eq, not_true_eq_false, if_false, decide_False]
      exact retryLoopN_congr call call2 b' (i + 1) (s + 1)
        (fun j hj => (hsame j (by omega)).symm)
  · intro b' hb
    subst hb
    rw [retryLoopN_succ, herr]

theorem retry_exception_like_non_ok_witness :
    (retryLoopN (fun _ => Except.error ()) 0 0 1 =
      retryLoopN
        (fun j => if j = 0 then Except.ok (responseInit "" "" none none none none 500)
                  else Except.error ()) 0 0 1) ∧
    (∀ b', 1 = b' + 1 → retryLoopN (fun _ => Except.error ()) 0 0 1 =
      retryLoopN (fun _ => Except.error ()) 1 1 b') :=
  retry_exception_like_non_ok _ _ 0 0 1 _ rfl rfl (by decide)
    (fun j hj => by simp [hj])

/-- The request hooks `_load_middleware` registers, in registration
order. -/
def regReqHooks (mws : List Middleware) : List ReqHook :=
  mws.filterMap (fun mw => mw.process_request.map (fun f => ⟨mw.id, f⟩))

/-- The response hooks `_load_middleware` registers, in registration
order. -/
def regRespHooks (mws : List Middleware) : List RespHook :=
  mws.filterMap (fun mw => mw.process_response.map (fun f => ⟨mw.id, f⟩))

theorem load_middleware_request (mws : List Middleware) :
    ∀ st : MWState,
    (DownloaderMiddleware.load_middleware mws st).request_middleware =
      st.request_middleware ++ regReqHooks mws := by
  induction mws with
  | nil =>
    intro st
    simp [DownloaderMiddleware.load_middleware, regReqHooks]
  | cons mw rest ih =>
    intro st
    unfold DownloaderMiddleware.load_middleware
    cases hpr : mw.process_request with
    | some f =>
      cases hps : mw.process_response with
      | some g =>
        by_cases hc : mw.has_close <;>
          simp [hc, ih, regReqHooks, List.filterMap_cons, hpr, hps]
      | none =>
        by_cases hc : mw.has_close <;>
          simp [hc, ih, regReqHooks, List.filterMap_cons, hpr, hps]
    | none =>
      cases hps : mw.process_response with
      | some g =>
        by_cases hc : mw.has_close <;>
          simp [hc, ih, regReqHooks, List.filterMap_cons, hpr, hps]
      | none =>
        by_cases hc : mw.has_close <;>
          simp [hc, ih, regReqHooks, List.filterMap_cons, hpr, hps]

theorem load_middleware_response (mws : List Middleware) :
    ∀ st : MWState,
    (DownloaderMiddleware.load_middleware mws st).response_middleware =
      (regRespHooks mws).reverse ++ st.response_middleware := by
  induction mws with
  | nil =>
    intro st
    simp [DownloaderMiddleware.load_middleware, regRespHooks]
  | cons mw rest ih =>
    intro st
    unfold DownloaderMiddleware.load_middleware
    cases hpr : mw.process_request with
    | some f =>
      cases hps : mw.process_response with
      | some g =>
        by_cases hc : mw.has_close <;>
          simp [hc, ih, regRespHooks, List.filterMap_cons, hpr, hps]
      | none =>
        by_cases hc : mw.has_close <;>
          simp [hc, ih, regRespHooks, List.filterMap_cons, hpr, hps]
    | none =>
      cases hps : mw.process_response with
      | some g =>
        by_cases hc : mw.has_close <;>
          simp [hc, ih, regRespHooks, List.filterMap_cons, hpr, hps]
      | none =>
        by_cases hc : mw.has_close <;>
          simp [hc, ih, regRespHooks, List.filterMap_cons, hpr, hps]

theorem regReqHooks_ids (mws : List Middleware) :
    (regReqHooks mws).map ReqHook.id =
      (mws.filter (fun mw => mw.process_request.isSome)).map Middleware.id := by
  induction mws with
  | nil => rfl
  | cons mw rest ih =>
    cases h : mw.process_request <;>
      simp [regReqHooks, List.filterMap_cons, List.filter_cons, h, ih] <;>
      simpa [regReqHooks] using ih

theorem regRespHooks_ids (mws : List Middleware) :
    (regRespHooks mws).map RespHook.id =
      (mws.filter (fun mw => mw.process_response.isSome)).map Middleware.id := by
  induction mws with
  | nil => rfl
  | cons mw rest ih =>
    cases h : mw.process_response <;>
      simp [regRespHooks, List.filterMap_cons, List.filter_cons, h, ih] <;>
      simpa [regRespHooks] using ih

theorem process_request_log_ids (hooks : List ReqHook) :
    ∀ req : Request,
    ((DownloaderMiddleware.process_request hooks req).2).map Prod.fst =
      hooks.map ReqHook.id := by
  induction hooks with
  | nil => intro req; rfl
  | cons h rest ih =>
    intro req
    unfold DownloaderMiddleware.process_request
    cases hr : h.run req with
    | ok req2 => simp [ih]
    | error e => simp [ih]

theorem process_response_log_ids (hooks : List RespHook) :
    ∀ (req : Request) (resp : Response),
    ((DownloaderMiddleware.process_response hooks req resp).2).map Prod.fst =
      hooks.map RespHook.id := by
  induction hooks with
  | nil => intro req resp; rfl
  | cons h rest ih =>
    intro req resp
    unfold DownloaderMiddleware.process_response
    cases hr : h.run req resp with
    | ok resp2 => simp [ih]
    | error e => simp [ih]

/-- C5: for every middleware list, one pass of fetch's pipeline
(`download_with_middleware` over the deques `_load_middleware` built)
invokes each registered request hook exactly once in registration order,
and each registered response hook exactly once in reverse registration
order, whatever each hook does — including raising. -/
theorem fetch_pipeline_hook_order (mws : List Middleware)
    (download_func : Request → Response) (request : Request) :
    ((DownloaderMiddleware.download_with_middleware
        (DownloaderMiddleware.load_middleware mws ⟨[], [], []⟩)
        download_func request).2.1).map Prod.fst =
      (mws.filter (fun mw => mw.process_request.isSome)).map Middleware.id ∧
    ((DownloaderMiddleware.download_with_middleware
        (DownloaderMiddleware.load_middleware mws ⟨[], [], []⟩)
        download_func request).2.2).map Prod.fst =
      ((mws.filter (fun mw => mw.process_response.isSome)).map Middleware.id).reverse := by
  unfold DownloaderMiddleware.download_with_middleware
  constructor
  · rw [process_request_log_ids, load_middleware_request]
    simp [regReqHooks_ids]
  · rw [process_response_log_ids, load_middleware_response]
    simp [List.map_reverse, regRespHooks_ids]

theorem process_request_cons (h : ReqHook) (rest : List ReqHook) (req : Request) :
    DownloaderMiddleware.process_request (h :: rest) req =
      (match h.run req with
       | Except.ok req2 =>
         ((DownloaderMiddleware.process_request rest req2).1,
          (h.id, false) :: (DownloaderMiddleware.process_request rest req2).2)
       | Except.error _ =>
         ((DownloaderMiddleware.process_request rest req).1,
          (h.id, true) :: (DownloaderMiddleware.process_request rest req).2)) := rfl

theorem process_response_cons (h : RespHook) (rest : List RespHook)
    (req : Request) (resp : Response) :
    DownloaderMiddleware.process_response (h :: rest) req resp =
      (match h.run req resp with
       | Except.ok resp2 =>
         ((DownloaderMiddleware.process_response rest req resp2).1,
          (h.id, false) :: (DownloaderMiddleware.process_response rest req resp2).2)
       | Except.error _ =>
         ((DownloaderMiddleware.process_response rest req resp).1,
          (h.id, true) :: (DownloaderMiddleware.process_response rest req resp).2)) := rfl

theorem process_request_append (as : List ReqHook) :
    ∀ (bs : List ReqHook) (req : Request),
    DownloaderMiddleware.process_request (as ++ bs) req =
      ((DownloaderMiddleware.process_request bs
          (DownloaderMiddleware.process_request as req).1).1,
       (DownloaderMiddleware.process_request as req).2 ++
         (DownloaderMiddleware.process_request bs
           (DownloaderMiddleware.process_request as req).1).2) := by
  induction as with
  | nil => intro bs req; simp [DownloaderMiddleware.process_request]
  | cons h rest ih =>
    intro bs req
    rw [List.cons_append, process_request_cons, process_request_cons]
    cases hr : h.run req with
    | ok req2 => simp [ih]
    | error e => simp [ih]

theorem process_response_append (as : List RespHook) :
    ∀ (bs : List RespHook) (req : Request) (resp : Response),
    DownloaderMiddleware.process_response (as ++ bs) req resp =
      ((DownloaderMiddleware.process_response bs req
          (DownloaderMiddleware.process_response as req resp).1).1,
       (DownloaderMiddleware.process_response as req resp).2 ++
         (DownloaderMiddleware.process_response bs req
           (DownloaderMiddleware.process_response as req resp).1).2) := by
  induction as with
  | nil => intro bs req resp; simp [DownloaderMiddleware.process_response]
  | cons h rest ih =>
    intro bs req resp
    rw [List.cons_append, process_response_cons, process_response_cons]
    cases hr : h.run req resp with
    | ok resp2 => simp [ih]
    | error e => simp [ih]

/-- C6: a request or response hook that raises when invoked is caught and
logged (its log entry carries the raised flag) and every remaining hook
still runs — the rest of the chain's log follows in full.  The pipeline
functions are total, so a hook failure never propagates to the caller. -/
theorem middleware_failure_never_fatal
    (pre post : List ReqHook) (h : ReqHook) (req : Request)
    (preR postR : List RespHook) (hR : RespHook) (rq : Request) (resp : Response)
    (hraise : ∃ e, h.run (DownloaderMiddleware.process_request pre req).1 =
      Except.error e)
    (hraiseR : ∃ e, hR.run rq (DownloaderMiddleware.process_response preR rq resp).1 =
      Except.error e) :
    (DownloaderMiddleware.process_request (pre ++ h :: post) req).2 =
      (DownloaderMiddleware.process_request pre req).2 ++
        (h.id, true) ::
          (DownloaderMiddleware.process_request post
            (DownloaderMiddleware.process_request pre req).1).2 ∧
    (DownloaderMiddleware.process_response (preR ++ hR :: postR) rq resp).2 =
      (DownloaderMiddleware.process_response preR rq resp).2 ++
        (hR.id, true) ::
          (DownloaderMiddleware.process_response postR rq
            (DownloaderMiddleware.process_response preR rq resp).1).2 := by
  obtain ⟨e1, he1⟩ := hraise
  obtain ⟨e2, he2⟩ := hraiseR
  constructor
  · rw [process_request_append, process_request_cons, he1]
  · rw [process_response_append, process_response_cons, he2]

theorem middleware_failure_never_fatal_witness :
    (DownloaderMiddleware.process_request
        ([] ++ (⟨1, fun _ => Except.error ()⟩ : ReqHook) ::
          [(⟨2, fun r => Except.ok r⟩ : ReqHook)])
        ⟨"u", "GET", none, none, []⟩).2 =
      (DownloaderMiddleware.process_request [] ⟨"u", "GET", none, none, []⟩).2 ++
        (1, true) ::
          (DownloaderMiddleware.process_request [(⟨2, fun r => Except.ok r⟩ : ReqHook)]
            (DownloaderMiddleware.process_request [] ⟨"u", "GET", none, none, []⟩).1).2 ∧
    (DownloaderMiddleware.process_response
        ([] ++ (⟨3, fun _ _ => Except.error ()⟩ : RespHook) ::
          [(⟨4, fun _ rp => Except.ok rp⟩ : RespHook)])
        ⟨"u", "GET", none, none, []⟩ responseDefault).2 =
      (DownloaderMiddleware.process_response [] ⟨"u", "GET", none, none, []⟩
          responseDefault).2 ++
        (3, true) ::
          (DownloaderMiddleware.process_response [(⟨4, fun _ rp => Except.ok rp⟩ : RespHook)]
            ⟨"u", "GET", none, none, []⟩
            (DownloaderMiddleware.process_response [] ⟨"u", "GET", none, none, []⟩
              responseDefault).1).2 :=
  middleware_failure_never_fatal [] [⟨2, fun r => Except.ok r⟩]
    ⟨1, fun _ => Except.error ()⟩ ⟨"u", "GET", none, none, []⟩
    [] [⟨4, fun _ rp => Except.ok rp⟩] ⟨3, fun _ _ => Except.error ()⟩
    ⟨"u", "GET", none, none, []⟩ responseDefault ⟨(), rfl⟩ ⟨(), rfl⟩

/-- C8 counterexample: `RequestDownloader.get` hands the call to the
module-level `requests.get`, not to the `default_session` created at
construction — for a downloader whose default session is handle 7, `get`
does not execute against `Transport.session 7`. -/
theorem downloader_get_bypasses_default_session :
    RequestDownloader.get_handle ⟨7, 3, 3⟩ = Transport.moduleLevel ∧
    Transport.moduleLevel ≠ Transport.session 7 :=
  ⟨rfl, by decide⟩

/-- C8 amended: `download` and `fetch` execute against the default session
when no session is supplied (for the httpx variant, also when no proxies
are given); `get` and `post` never use the default session — the requests
and httpx variants call module-level library functions and the aiohttp
variant opens a fresh `ClientSession` per call.  The aiohttp variant's
default session is created lazily by the first `download`/`fetch` without
an explicit session and reused by later calls, not at construction. -/
theorem default_session_usage (rd : RequestDownloader) (hd : HttpxDownloader)
    (ad : AiohttpDownloader) (fid fid2 : Nat)
    (hnone : ad.default_session = none) :
    rd.download_handle none = Transport.session rd.default_session ∧
    rd.fetch_handle none = Transport.session rd.default_session ∧
    rd.get_handle = Transport.moduleLevel ∧
    rd.post_handle = Transport.moduleLevel ∧
    hd.download_handle none none fid = Transport.session hd.default_session ∧
    hd.fetch_handle none none fid = Transport.session hd.default_session ∧
    hd.get_handle = Transport.moduleLevel ∧
    hd.post_handle = Transport.moduleLevel ∧
    ad.get_handle fid = Transport.freshClient fid ∧
    ad.post_handle fid = Transport.freshClient fid ∧
    (ad.download_handle none fid).1 = Transport.session fid ∧
    ((ad.download_handle none fid).2.fetch_handle none fid2).1 =
      Transport.session fid := by
  refine ⟨rfl, rfl, rfl, rfl, rfl, rfl, rfl, rfl, rfl, rfl, ?_, ?_⟩ <;>
    simp [AiohttpDownloader.download_handle, AiohttpDownloader.fetch_handle,
      AiohttpDownloader.get_session, hnone]

theorem default_session_usage_witness :
    RequestDownloader.download_handle ⟨7, 3, 3⟩ none = Transport.session 7 ∧
    RequestDownloader.fetch_handle ⟨7, 3, 3⟩ none = Transport.session 7 ∧
    RequestDownloader.get_handle ⟨7, 3, 3⟩ = Transport.moduleLevel ∧
    RequestDownloader.post_handle ⟨7, 3, 3⟩ = Transport.moduleLevel ∧
    HttpxDownloader.download_handle ⟨8, 3, 3⟩ none none 9 = Transport.session 8 ∧
    HttpxDownloader.fetch_handle ⟨8, 3, 3⟩ none none 9 = Transport.session 8 ∧
    HttpxDownloader.get_handle ⟨8, 3, 3⟩ = Transport.moduleLevel ∧
    HttpxDownloader.post_handle ⟨8, 3, 3⟩ = Transport.moduleLevel ∧
    AiohttpDownloader.get_handle ⟨none, 3, 3⟩ 9 = Transport.freshClient 9 ∧
    AiohttpDownloader.post_handle ⟨none, 3, 3⟩ 9 = Transport.freshClient 9 ∧
    (AiohttpDownloader.download_handle ⟨none, 3, 3⟩ none 9).1 = Transport.session 9 ∧
    ((AiohttpDownloader.download_handle ⟨none, 3, 3⟩ none 9).2.fetch_handle none 10).1 =
      Transport.session 9 :=
  default_session_usage ⟨7, 3, 3⟩ ⟨8, 3, 3⟩ ⟨none, 3, 3⟩ 9 10 rfl

theorem get_encoding_ok_nonempty (r : Response) (lookupCodec : String → Bool)
    (detect : ByteStr → Option String) (e : String) (d : Nat)
    (h : r.get_encoding lookupCodec detect = (Except.ok e, d)) :
    e.isEmpty = false := by
  unfold Response.get_encoding at h
  cases hh : r.headers with
  | none =>
    rw [hh] at h
    simp at h
  | some hs =>
    rw [hh] at h
    dsimp only at h
    split at h
    · rename_i htr
      cases henc : (match assocGet (parse_mimetype (((assocGet hs "Content-Type").getD "").toLower)).parameters "charset" with
          | some s => if !s.isEmpty && !lookupCodec s then none else some s
          | none => none : Option String) with
      | none => rw [henc] at htr h; simp [truthyOptStr] at htr
      | some s =>
        rw [henc] at htr h
        simp only [truthyOptStr] at htr
        simp only [Option.getD_some, Prod.mk.injEq, Except.ok.injEq] at h
        rw [← h.1]
        simpa using htr
    · split at h
      · simp only [Prod.mk.injEq, Except.ok.injEq] at h
        rw [← h.1]
        rfl
      · split at h
        · simp at h
        · split at h
          · rename_i bs heq htr
            simp only [Prod.mk.injEq, Except.ok.injEq] at h
            rw [← h.1]
            cases hdet : detect bs with
            | none => rw [hdet] at htr; simp [truthyOptStr] at htr
            | some s =>
              rw [hdet] at htr
              simp only [truthyOptStr] at htr
              simp [hdet]
              simpa using htr
          · simp only [Prod.mk.injEq, Except.ok.injEq] at h
            rw [← h.1]
            rfl

theorem get_encoding_detect_le_one (r : Response) (lookupCodec : String → Bool)
    (detect : ByteStr → Option String) :
    (r.get_encoding lookupCodec detect).2 ≤ 1 := by
  unfold Response.get_encoding
  cases hh : r.headers with
  | none => simp
  | some hs =>
    dsimp only
    split
    · simp
    · split
      · simp
      · split
        · simp
        · split <;> simp

theorem get_encoding_error_detect_zero (r : Response) (lookupCodec : String → Bool)
    (detect : ByteStr → Option String) (err : EncodingErr) (d : Nat)
    (h : r.get_encoding lookupCodec detect = (Except.error err, d)) :
    d = 0 := by
  unfold Response.get_encoding at h
  cases hh : r.headers with
  | none =>
    rw [hh] at h
    simp only [Prod.mk.injEq] at h
    exact h.2.symm
  | some hs =>
    rw [hh] at h
    dsimp only at h
    split at h
    · simp only [Prod.mk.injEq] at h
      exact h.2.symm
    · split at h
      · simp only [Prod.mk.injEq] at h
        exact h.2.symm
      · split at h
        · simp only [Prod.mk.injEq] at h
          exact h.2.symm
        · split at h <;> simp at h

/-- C9: for a Response with fixed content and headers, repeated access to
`text` yields the same result, the response is unchanged after the first
access (the resolved encoding is memoised in `self.encoding`), and
statistical detection runs at most once across both accesses. -/
theorem text_repeated_access_stable (r : Response) (lookupCodec : String → Bool)
    (detect : ByteStr → Option String) (decode : ByteStr → String → String) :
    ((r.textAccess lookupCodec detect decode).2.1.textAccess lookupCodec detect decode).1 =
      (r.textAccess lookupCodec detect decode).1 ∧
    ((r.textAccess lookupCodec detect decode).2.1.textAccess lookupCodec detect decode).2.1 =
      (r.textAccess lookupCodec detect decode).2.1 ∧
    (r.textAccess lookupCodec detect decode).2.2 +
      ((r.textAccess lookupCodec detect decode).2.1.textAccess lookupCodec detect decode).2.2 ≤ 1 := by
  cases hc : r._content with
  | none => simp [Response.textAccess, hc]
  | some bs =>
    by_cases hbe : bs.isEmpty
    · simp [Response.textAccess, hc, hbe]
    · by_cases henc : r.encoding.isEmpty
      · cases hge : r.get_encoding lookupCodec detect with
        | mk fst snd =>
          cases fst with
          | ok e =>
            have hne := get_encoding_ok_nonempty r lookupCodec detect e snd hge
            have hle := get_encoding_detect_le_one r lookupCodec detect
            rw [hge] at hle
            simp [Response.textAccess, hc, hbe, henc, hge, hne]
            simpa using hle
          | error err =>
            have hz := get_encoding_error_detect_zero r lookupCodec detect err snd hge
            simp [Response.textAccess, hc, hbe, henc, hge, hz]
      · simp [Response.textAccess, hc, hbe, henc]

theorem get_encoding_matches_spec (r : Response) (hl : List (String × String))
    (bs : ByteStr) (lookupCodec : String → Bool) (detect : ByteStr → Option String)
    (hh : r.headers = some hl) (hc : r._content = some bs) :
    (r.get_encoding lookupCodec detect).1 =
      Except.ok (encodingSpecOrder "" hl bs lookupCodec detect) := by
  have h0 : "".isEmpty = true := rfl
  unfold Response.get_encoding encodingSpecOrder
  rw [hh]
  dsimp only
  rw [hc]
  cases hcs : assocGet (parse_mimetype (((assocGet hl "Content-Type").getD "").toLower)).parameters "charset" with
  | none =>
    simp [hcs, truthyOptStr, h0]
    try first
    | rfl
    | (split <;> first | rfl | (split <;> rfl))
  | some s =>
    by_cases hse : s.isEmpty
    · simp [hcs, truthyOptStr, hse, h0]
      try first
      | rfl
      | (split <;> first | rfl | (split <;> rfl))
    · by_cases hlc : lookupCodec s
      · simp [hcs, truthyOptStr, hse, hlc, h0]
      · simp [hcs, truthyOptStr, hse, hlc, h0]
        try first
        | rfl
        | (split <;> first | rfl | (split <;> rfl))

/-- C4: for every Response with non-empty content and a header mapping,
one access to `text` decodes the content with the encoding resolved in
exactly the specification's order, captured by `encodingSpecOrder`:
(a) explicitly supplied encoding, (b) recognised `charset` parameter of
the Content-Type header, (c) utf-8 for `application/json` and
`application/rdap`, (d) statistical content-based detection, (e) utf-8
as final fallback. -/
theorem text_encoding_resolution_order (r : Response) (hl : List (String × String))
    (bs : ByteStr) (lookupCodec : String → Bool) (detect : ByteStr → Option String)
    (decode : ByteStr → String → String)
    (hh : r.headers = some hl) (hc : r._content = some bs) (hne : bs ≠ []) :
    (r.textAccess lookupCodec detect decode).1 =
      TextResult.decoded
        (decode bs (encodingSpecOrder r.encoding hl bs lookupCodec detect)) := by
  have h0 : "".isEmpty = true := rfl
  have hbe : bs.isEmpty = false := by
    cases bs with
    | nil => exact absurd rfl hne
    | cons a l => rfl
  by_cases henc : r.encoding.isEmpty
  · have hspec := get_encoding_matches_spec r hl bs lookupCodec detect hh hc
    have hord : encodingSpecOrder r.encoding hl bs lookupCodec detect =
        encodingSpecOrder "" hl bs lookupCodec detect := by
      unfold encodingSpecOrder
      rw [henc, h0]
      simp
    cases hge : r.get_encoding lookupCodec detect with
    | mk fst snd =>
      rw [hge] at hspec
      dsimp only at hspec
      subst hspec
      simp [Response.textAccess, hc, hbe, henc, hge, hord]
  · simp [Response.textAccess, hc, hbe, henc, encodingSpecOrder]

theorem text_encoding_resolution_order_witness :
    ((responseInit "u" "" (some [104, 105]) none none
        (some [("Content-Type", "text/html; charset=utf-8")]) 200).textAccess
        (fun s => s == "utf-8") (fun _ => none) (fun _ e => e)).1 =
      TextResult.decoded ((fun _ e => e) ([104, 105] : ByteStr)
        (encodingSpecOrder
          (responseInit "u" "" (some [104, 105]) none none
            (some [("Content-Type", "text/html; charset=utf-8")]) 200).encoding
          [("Content-Type", "text/html; charset=utf-8")] [104, 105]
          (fun s => s == "utf-8") (fun _ => none))) :=
  text_encoding_resolution_order _ _ _ _ _ _ rfl rfl (by decide)
